import Mathlib

/-!
Verification of the CRUD file-manager repository.

Part one models the two `Login` components found in
`src/src/components/Login.vue` (the only executable source shipped in the
repository).  Part two models the backend gateway (registry, path resolver,
auth gate, operation handlers, response formatter); the backend's own source
is not part of the repository snapshot, so those definitions are modelled
from the specification, as marked in their doc comments.
-/

namespace VF

/-! ### Login components (from src/src/components/Login.vue) -/

/-- Character-by-character model of JavaScript strict string equality
(the `===` operator used in `handleLogin`, Login.vue line 43), together with
the number of character comparisons it performs: it compares position by
position and stops at the first mismatch. -/
def strictEqChars : List Char → List Char → Bool × Nat
  | [], [] => (true, 0)
  | [], _ :: _ => (false, 0)
  | _ :: _, [] => (false, 0)
  | a :: as, b :: bs =>
    if a = b then
      ((strictEqChars as bs).1, (strictEqChars as bs).2 + 1)
    else
      (false, 1)

/-- Boolean result of the modelled `===` comparison. -/
def jsStrictEq (a b : String) : Bool :=
  (strictEqChars a.data b.data).1

/-- Number of character comparisons performed by the modelled `===`. -/
def jsStrictEqCost (a b : String) : Nat :=
  (strictEqChars a.data b.data).2

/-- Number of leading positions at which two character lists agree. -/
def leadMatch : List Char → List Char → Nat
  | a :: as, b :: bs => if a = b then leadMatch as bs + 1 else 0
  | _, _ => 0

/-- The access code hardcoded in the first Login component
(Login.vue line 43). -/
def loginSecret : String := "frankenstein"

/-- Reactive state of the first Login component (Login.vue `data()`). -/
structure Login1State where
  accessCode : String
  error : Option String
  loading : Bool
deriving DecidableEq

/-- Observable side effects of one `handleLogin` run of the first component:
`localStorage.setItem` calls and emitted events, each with their payload. -/
structure Login1Effects where
  storageWrites : List (String × String)
  emitted : List (String × String)
deriving DecidableEq

/-- The `handleLogin` method of the first Login component
(Login.vue lines 37-54): clear the error, set `loading`, compare the entered
code against the hardcoded secret with `===`; on match write the code to
localStorage and emit `login-success`, otherwise set the error message; the
`finally` block clears `loading`. -/
def handleLogin1 (st : Login1State) : Login1State × Login1Effects :=
  let st1 : Login1State := { st with error := none, loading := true }
  if jsStrictEq st1.accessCode loginSecret then
    ({ st1 with loading := false },
     ⟨[("accessCode", st1.accessCode)], [("login-success", st1.accessCode)]⟩)
  else
    ({ st1 with error := some "Invalid access code", loading := false },
     ⟨[], []⟩)

/-- Reactive state of the second Login component (Login.vue `data()` of the
second single-file component in the same file). -/
structure Login2State where
  accessCode : String
  error : Option String
  loading : Bool
deriving DecidableEq

/-- Outcome of the `fetch` call in the second component's `handleLogin`:
the response was ok, the response was not ok (carrying the status, the
optional `error` field of the parsed body and the status text), or the fetch
or JSON parse threw. -/
inductive FetchOutcome
  | ok
  | notOk (status : Nat) (errField : Option String) (statusText : String)
  | threw (msg : String)

/-- The `handleLogin` method of the second Login component
(Login.vue lines 156-188): clear the error, set `loading`, then depending on
the fetch outcome emit `login-success`, record the server error, or record
the connection error; the `finally` block clears `loading` and resets
`accessCode` to the empty string. -/
def handleLogin2 (st : Login2State) (out : FetchOutcome) : Login2State × List String :=
  let st1 : Login2State := { st with error := none, loading := true }
  let step : Login2State × List String :=
    match out with
    | FetchOutcome.ok => (st1, ["login-success"])
    | FetchOutcome.notOk status errField statusText =>
      ({ st1 with
          error := some ("Error " ++ toString status ++ ": " ++ Option.getD errField statusText) },
       [])
    | FetchOutcome.threw msg =>
      ({ st1 with error := some ("Connection error: " ++ msg) }, [])
  ({ step.1 with loading := false, accessCode := "" }, step.2)

/-! ### Backend gateway (modelled from the spec) -/

/-- Modelled from the spec: an absolute storage location, represented as the
list of its path segments. -/
abbrev AbsPath := List String

/-- Modelled from the spec: a storage entry is either a file with content or
a directory. -/
inductive Entry
  | file (content : String)
  | dir
deriving DecidableEq

/-- Modelled from the spec: `FileSystemDefinition` with unique name, root
location and read-only flag (spec section 3). -/
structure FileSystemDefinition where
  name : String
  root : AbsPath
  read_only : Bool
deriving DecidableEq

/-- Modelled from the spec: the underlying storage, an association of
absolute paths to entries. -/
abbrev Storage := List (AbsPath × Entry)

/-- Modelled from the spec: storage lookup of the entry at a path. -/
def Storage.lookup : Storage → AbsPath → Option Entry
  | [], _ => none
  | e :: rest, p => if e.1 = p then some e.2 else Storage.lookup rest p

/-- Modelled from the spec: remove the entry at a path from storage. -/
def Storage.remove : Storage → AbsPath → Storage
  | [], _ => []
  | e :: rest, p => if e.1 = p then Storage.remove rest p else e :: Storage.remove rest p

/-- Modelled from the spec: write an entry at a path, replacing any previous
entry there (full overwrite, last-writer-wins). -/
def Storage.set (st : Storage) (p : AbsPath) (v : Entry) : Storage :=
  (p, v) :: Storage.remove st p

/-- Modelled from the spec: remove the entry at a path together with
everything below it (recursive delete of a directory). -/
def Storage.removeTree : Storage → AbsPath → Storage
  | [], _ => []
  | e :: rest, p =>
    if List.take p.length e.1 = p then Storage.removeTree rest p
    else e :: Storage.removeTree rest p

/-- Modelled from the spec: the path-resolution error (`PathEscapeError`),
raised when a client path would leave the configured root. -/
inductive PathError
  | escape
deriving DecidableEq

/-- Modelled from the spec: does a client-supplied relative path begin with
the path separator (an absolute override attempt, spec section 4.3)? -/
def startsWithSep (s : String) : Bool :=
  match s.data with
  | [] => false
  | c :: _ => decide (c = '/')

/-- Modelled from the spec: split a client path on the path separator into
its raw segments. -/
def splitSegsAux : List Char → List Char → List String
  | [], cur => [String.mk cur.reverse]
  | c :: cs, cur =>
    if c = '/' then String.mk cur.reverse :: splitSegsAux cs []
    else splitSegsAux cs (c :: cur)

/-- Modelled from the spec: segments of a client-supplied relative path. -/
def splitSegs (s : String) : List String := splitSegsAux s.data []

/-- Modelled from the spec: normalization of raw path segments
(spec section 4.3): empty and current-directory segments are dropped, a
parent segment removes the previously accepted segment, and a parent
segment that would climb above the root fails. -/
def normSegs : List String → List String → Option (List String)
  | [], acc => some acc
  | s :: rest, acc =>
    if s = "" ∨ s = "." then normSegs rest acc
    else if s = ".." then
      match acc with
      | [] => none
      | a :: as => normSegs rest (List.dropLast (a :: as))
    else normSegs rest (acc ++ [s])

/-- Modelled from the spec: `PathResolver.resolve(root, relativePath)`
(spec section 4.3): reject a leading separator, normalize the segments
rejecting any climb above the root, and return the concatenation with the
root, which therefore always lies within the root. -/
def resolve (root : AbsPath) (rel : String) : Except PathError AbsPath :=
  if startsWithSep rel then Except.error PathError.escape
  else
    match normSegs (splitSegs rel) [] with
    | none => Except.error PathError.escape
    | some segs => Except.ok (root ++ segs)

/-- Modelled from the spec: accumulator pass of the constant-time credential
comparison of the AuthGate (spec section 4.2); every character position is
visited regardless of where the first mismatch occurs. -/
def ctEqChars : List Char → List Char → Bool → Bool
  | [], [], acc => acc
  | [], _ :: _, _ => false
  | _ :: _, [], _ => false
  | a :: as, b :: bs, acc => ctEqChars as bs (acc && decide (a = b))

/-- Modelled from the spec: constant-time string comparison used by the
AuthGate. -/
def ctEq (a b : String) : Bool := ctEqChars a.data b.data true

/-- Modelled from the spec: `AuthGate.authenticate` — compare the supplied
credential (absent or present) against the single configured secret. -/
def authenticate (secret : String) (cred : Option String) : Bool :=
  match cred with
  | none => false
  | some c => ctEq c secret

/-- Modelled from the spec: the JSON wire values of the external interface
(spec section 6). -/
inductive Json
  | str (s : String)
  | arr (xs : List Json)
  | obj (fields : List (String × Json))

/-- Modelled from the spec: the error taxonomy of the gateway
(spec section 7), each error carrying what its message needs. -/
inductive OpError
  | fsNotFound (name : String)
  | pathNotFound (path : String)
  | escape (path : String)
  | readOnly
  | alreadyExists (path : String)
  | isADirectory (path : String)
deriving DecidableEq

/-- Modelled from the spec: the operation requests of the six endpoints. -/
inductive OpReq
  | list_fs
  | read (path : String)
  | create (path : String) (is_folder : Bool)
  | update (path : String) (content : String)
  | rename (old_path : String) (new_path : String)
  | delete (path : String)

/-- Modelled from the spec: result of one operation handler — its outcome,
the storage afterwards, and the absolute paths on which it performed
storage I/O. -/
structure OpOut where
  result : Except OpError Json
  store : Storage
  accessed : List AbsPath

/-- Modelled from the spec: name of a child of a directory, if the given
path is directly below that directory. -/
def childName (d p : AbsPath) : Option String :=
  if p.length = d.length + 1 ∧ List.take d.length p = d then List.getLast? p
  else none

/-- Modelled from the spec: names of the entries directly inside a
directory. -/
def childNames (st : Storage) (d : AbsPath) : List String :=
  List.filterMap (fun e => childName d e.1) st

/-- Modelled from the spec: directory listing, ordered by name ascending,
case-sensitively (spec section 4.4, `read` row). -/
def readDirNames (st : Storage) (d : AbsPath) : List String :=
  List.insertionSort (fun a b => a ≤ b) (childNames st d)

/-- Modelled from the spec: directory response body of `read`
(spec section 6). -/
def dirJson (path : String) (names : List String) : Json :=
  Json.obj [("type", Json.str "directory"), ("path", Json.str path),
            ("contents", Json.arr (List.map Json.str names))]

/-- Modelled from the spec: file response body of `read` (spec section 6). -/
def fileJson (path : String) (content : String) : Json :=
  Json.obj [("type", Json.str "file"), ("path", Json.str path),
            ("content", Json.str content)]

/-- Modelled from the spec: success body of `create` (message per the
repository's API documentation, README.api.md). -/
def createdJson (path : String) (is_folder : Bool) : Json :=
  Json.obj [("message", Json.str (if is_folder then "Folder created successfully"
                                  else "File created successfully")),
            ("path", Json.str path)]

/-- Modelled from the spec: success body of `update` (README.api.md). -/
def updatedJson (path : String) : Json :=
  Json.obj [("message", Json.str "Content saved successfully"),
            ("path", Json.str path)]

/-- Modelled from the spec: success body of `rename` (README.api.md). -/
def renamedJson : Json :=
  Json.obj [("message", Json.str "Renamed successfully")]

/-- Modelled from the spec: success body of `delete` (README.api.md). -/
def deletedJson (path : String) : Json :=
  Json.obj [("message", Json.str "Deleted successfully"),
            ("path", Json.str path)]

/-- Modelled from the spec: the operation handlers (spec section 4.4).
Mutating handlers first reject on the read-only flag, then every handler
resolves its client path(s) and performs the storage action; a resolution
failure surfaces as `PathEscapeError` carrying the client path. The
`list_fs` case is dispatched at the gateway level and performs nothing
here. -/
def runOp (fs : FileSystemDefinition) (st : Storage) : OpReq → OpOut
  | OpReq.list_fs => ⟨Except.ok (Json.arr []), st, []⟩
  | OpReq.read rel =>
    match resolve fs.root rel with
    | Except.error _ => ⟨Except.error (OpError.escape rel), st, []⟩
    | Except.ok p =>
      match Storage.lookup st p with
      | none => ⟨Except.error (OpError.pathNotFound rel), st, [p]⟩
      | some Entry.dir => ⟨Except.ok (dirJson rel (readDirNames st p)), st, [p]⟩
      | some (Entry.file c) => ⟨Except.ok (fileJson rel c), st, [p]⟩
  | OpReq.create rel folder =>
    if fs.read_only then ⟨Except.error OpError.readOnly, st, []⟩
    else
      match resolve fs.root rel with
      | Except.error _ => ⟨Except.error (OpError.escape rel), st, []⟩
      | Except.ok p =>
        match Storage.lookup st p with
        | some _ => ⟨Except.error (OpError.alreadyExists rel), st, [p]⟩
        | none =>
          ⟨Except.ok (createdJson rel folder),
           Storage.set st p (if folder then Entry.dir else Entry.file ""), [p]⟩
  | OpReq.update rel content =>
    if fs.read_only then ⟨Except.error OpError.readOnly, st, []⟩
    else
      match resolve fs.root rel with
      | Except.error _ => ⟨Except.error (OpError.escape rel), st, []⟩
      | Except.ok p =>
        match Storage.lookup st p with
        | none => ⟨Except.error (OpError.pathNotFound rel), st, [p]⟩
        | some Entry.dir => ⟨Except.error (OpError.isADirectory rel), st, [p]⟩
        | some (Entry.file _) =>
          ⟨Except.ok (updatedJson rel), Storage.set st p (Entry.file content), [p]⟩
  | OpReq.rename old new =>
    if fs.read_only then ⟨Except.error OpError.readOnly, st, []⟩
    else
      match resolve fs.root old with
      | Except.error _ => ⟨Except.error (OpError.escape old), st, []⟩
      | Except.ok pOld =>
        match resolve fs.root new with
        | Except.error _ => ⟨Except.error (OpError.escape new), st, []⟩
        | Except.ok pNew =>
          match Storage.lookup st pOld with
          | none => ⟨Except.error (OpError.pathNotFound old), st, [pOld, pNew]⟩
          | some e =>
            match Storage.lookup st pNew with
            | some _ => ⟨Except.error (OpError.alreadyExists new), st, [pOld, pNew]⟩
            | none =>
              ⟨Except.ok renamedJson,
               Storage.set (Storage.remove st pOld) pNew e, [pOld, pNew]⟩
  | OpReq.delete rel =>
    if fs.read_only then ⟨Except.error OpError.readOnly, st, []⟩
    else
      match resolve fs.root rel with
      | Except.error _ => ⟨Except.error (OpError.escape rel), st, []⟩
      | Except.ok p =>
        match Storage.lookup st p with
        | none => ⟨Except.error (OpError.pathNotFound rel), st, [p]⟩
        | some _ => ⟨Except.ok (deletedJson rel), Storage.removeTree st p, [p]⟩

/-- Modelled from the spec: a wire response — HTTP status and JSON body. -/
structure Response where
  status : Nat
  body : Json

/-- Modelled from the spec: the 401 response of the AuthGate
(spec section 6). -/
def response401 : Response :=
  ⟨401, Json.obj [("error", Json.str "Unauthorized: Invalid API Key")]⟩

/-- Modelled from the spec: the ResponseFormatter for errors
(spec sections 6 and 7). `PathEscapeError` is deliberately rendered exactly
as `PathNotFoundError`; the spec fixes no status or body for the read-only
and is-a-directory cases, so representative ones are chosen. -/
def formatError : OpError → Response
  | OpError.fsNotFound n =>
    ⟨404, Json.obj [("error", Json.str ("File system \x27" ++ n ++ "\x27 not found"))]⟩
  | OpError.pathNotFound p =>
    ⟨404, Json.obj [("error", Json.str ("Path \x27" ++ p ++ "\x27 does not exist"))]⟩
  | OpError.escape p =>
    ⟨404, Json.obj [("error", Json.str ("Path \x27" ++ p ++ "\x27 does not exist"))]⟩
  | OpError.readOnly =>
    ⟨403, Json.obj [("error", Json.str "File system is read-only")]⟩
  | OpError.alreadyExists p =>
    ⟨409, Json.obj [("error", Json.str ("Path \x27" ++ p ++ "\x27 already exists"))]⟩
  | OpError.isADirectory _ =>
    ⟨500, Json.obj [("error", Json.str "Failed to perform operation")]⟩

/-- Modelled from the spec: a request context — credential, file-system
name and operation (spec section 3, `RequestContext`). -/
structure Request where
  apiKey : Option String
  fs_name : String
  op : OpReq

/-- Modelled from the spec: the FileSystemRegistry — the immutable list of
configured file systems (spec section 4.1). -/
structure Registry where
  defs : List FileSystemDefinition

/-- Modelled from the spec: `FileSystemRegistry.lookup(name)`. -/
def Registry.lookupFs (reg : Registry) (n : String) : Option FileSystemDefinition :=
  List.find? (fun d => decide (d.name = n)) reg.defs

/-- Modelled from the spec: the `list_fs` response body (spec section 6). -/
def listFsJson (reg : Registry) : Json :=
  Json.obj [("file_systems", Json.arr (List.map (fun d => Json.str d.name) reg.defs))]

/-- Modelled from the spec: the gateway — AuthGate first, then registry
lookup, then the operation handler, then the ResponseFormatter
(spec section 2, control flow). -/
def handle (secret : String) (reg : Registry) (st : Storage) (req : Request) :
    Response × Storage :=
  if authenticate secret req.apiKey then
    match req.op with
    | OpReq.list_fs => (⟨200, listFsJson reg⟩, st)
    | op =>
      match Registry.lookupFs reg req.fs_name with
      | none => (formatError (OpError.fsNotFound req.fs_name), st)
      | some fs =>
        match (runOp fs st op).result with
        | Except.ok j => (⟨200, j⟩, (runOp fs st op).store)
        | Except.error e => (formatError e, (runOp fs st op).store)
  else (response401, st)

/-! ### Helper lemmas -/

/-- The modelled `===` returns `true` exactly on equal character lists. -/
theorem strictEqChars_fst (as : List Char) :
    ∀ bs, (strictEqChars as bs).1 = true ↔ as = bs := by
  induction as with
  | nil => intro bs; cases bs <;> simp [strictEqChars]
  | cons a as ih =>
    intro bs
    cases bs with
    | nil => simp [strictEqChars]
    | cons b bs =>
      by_cases h : a = b
      · subst h; simp [strictEqChars, ih]
      · simp [strictEqChars, h]

/-- The modelled `===` agrees with string equality. -/
theorem jsStrictEq_iff (a b : String) : jsStrictEq a b = true ↔ a = b := by
  unfold jsStrictEq
  rw [strictEqChars_fst]
  exact ⟨fun h => String.ext h, fun h => by rw [h]⟩

/-- On two distinct same-length inputs, the modelled `===` performs exactly
one comparison more than the number of leading matching characters. -/
theorem strictEqChars_cost (as : List Char) :
    ∀ bs, as.length = bs.length → as ≠ bs →
      (strictEqChars as bs).2 = leadMatch as bs + 1 := by
  induction as with
  | nil =>
    intro bs hlen hne
    cases bs with
    | nil => exact absurd rfl hne
    | cons b bs => simp at hlen
  | cons a as ih =>
    intro bs hlen hne
    cases bs with
    | nil => simp at hlen
    | cons b bs =>
      by_cases h : a = b
      · subst h
        have hne2 : as ≠ bs := fun hh => hne (by rw [hh])
        have hlen2 : as.length = bs.length := by simpa using hlen
        simp [strictEqChars, leadMatch, ih bs hlen2 hne2]
      · simp [strictEqChars, leadMatch, h]

/-- Soundness of the constant-time comparison pass: a `true` outcome forces
equal inputs and a `true` accumulator. -/
theorem ctEqChars_sound (as : List Char) :
    ∀ bs acc, ctEqChars as bs acc = true → as = bs ∧ acc = true := by
  induction as with
  | nil =>
    intro bs acc h
    cases bs with
    | nil => exact ⟨rfl, h⟩
    | cons b bs => simp [ctEqChars] at h
  | cons a as ih =>
    intro bs acc h
    cases bs with
    | nil => simp [ctEqChars] at h
    | cons b bs =>
      obtain ⟨h1, h2⟩ := ih bs (acc && decide (a = b)) h
      rw [Bool.and_eq_true, decide_eq_true_eq] at h2
      exact ⟨by rw [h2.2, h1], h2.1⟩

/-- The constant-time comparison pass returns the accumulator on equal
inputs. -/
theorem ctEqChars_self (as : List Char) : ∀ acc, ctEqChars as as acc = acc := by
  induction as with
  | nil => intro acc; rfl
  | cons a as ih => intro acc; simp [ctEqChars, ih]

/-- The modelled constant-time comparison accepts equal strings. -/
theorem ctEq_self (a : String) : ctEq a a = true := ctEqChars_self a.data true

/-- The AuthGate accepts the configured secret. -/
theorem authenticate_some_self (secret : String) :
    authenticate secret (some secret) = true := ctEq_self secret

/-- The AuthGate rejects an absent or mismatching credential. -/
theorem authenticate_eq_false (secret : String) (cred : Option String)
    (h : cred ≠ some secret) : authenticate secret cred = false := by
  cases cred with
  | none => rfl
  | some c =>
    have hc : c ≠ secret := fun hh => h (by rw [hh])
    show ctEq c secret = false
    cases hcc : ctEqChars c.data secret.data true with
    | false => exact hcc
    | true => exact absurd (String.ext (ctEqChars_sound _ _ _ hcc).1) hc

/-- Looking up a freshly written path returns the written entry. -/
theorem Storage.lookup_set_self (st : Storage) (p : AbsPath) (v : Entry) :
    Storage.lookup (Storage.set st p v) p = some v := by
  simp [Storage.set, Storage.lookup]

/-- Removing a path removes its entry. -/
theorem Storage.lookup_remove_self (st : Storage) (p : AbsPath) :
    Storage.lookup (Storage.remove st p) p = none := by
  induction st with
  | nil => rfl
  | cons e rest ih =>
    by_cases h : e.1 = p
    · simpa [Storage.remove, h] using ih
    · simp [Storage.remove, Storage.lookup, h, ih]

/-- Removing a path leaves every other path unchanged. -/
theorem Storage.lookup_remove_ne (st : Storage) (p q : AbsPath) (h : q ≠ p) :
    Storage.lookup (Storage.remove st p) q = Storage.lookup st q := by
  induction st with
  | nil => rfl
  | cons e rest ih =>
    by_cases hep : e.1 = p
    · have hq : e.1 ≠ q := by rw [hep]; exact Ne.symm h
      simp only [Storage.remove]
      rw [if_pos hep, ih]
      simp only [Storage.lookup]
      rw [if_neg hq]
    · simp only [Storage.remove]
      rw [if_neg hep]
      simp only [Storage.lookup]
      rw [ih]

/-- Writing one path leaves every other path unchanged. -/
theorem Storage.lookup_set_ne (st : Storage) (p q : AbsPath) (v : Entry)
    (h : q ≠ p) :
    Storage.lookup (Storage.set st p v) q = Storage.lookup st q := by
  have hpq : ¬ ((p, v).1 = q) := fun hh => h (by simpa using hh.symm)
  simp only [Storage.set, Storage.lookup]
  rw [if_neg hpq]
  exact Storage.lookup_remove_ne st p q h

/-- A successful resolution lies within the root it was resolved against. -/
theorem resolve_ok_contained (root : AbsPath) (rel : String) (p : AbsPath)
    (h : resolve root rel = Except.ok p) : root <+: p := by
  unfold resolve at h
  split at h
  · cases h
  · split at h
    · cases h
    · injection h with h'
      exact ⟨_, h'⟩

/-- Every path on which an operation handler performs storage I/O lies
within the root of its file system. -/
theorem runOp_accessed_contained (fs : FileSystemDefinition) (st : Storage)
    (op : OpReq) : ∀ q ∈ (runOp fs st op).accessed, fs.root <+: q := by
  intro q hq
  cases op with
  | list_fs => simp [runOp] at hq
  | read rel =>
    cases hres : resolve fs.root rel with
    | error e => simp [runOp, hres] at hq
    | ok p =>
      cases hl : Storage.lookup st p with
      | none =>
        simp [runOp, hres, hl] at hq
        subst hq; exact resolve_ok_contained _ _ _ hres
      | some entry =>
        cases entry <;> simp [runOp, hres, hl] at hq <;>
          (subst hq; exact resolve_ok_contained _ _ _ hres)
  | create rel folder =>
    cases hro : fs.read_only with
    | true => simp [runOp, hro] at hq
    | false =>
      cases hres : resolve fs.root rel with
      | error e => simp [runOp, hro, hres] at hq
      | ok p =>
        cases hl : Storage.lookup st p with
        | none =>
          simp [runOp, hro, hres, hl] at hq
          subst hq; exact resolve_ok_contained _ _ _ hres
        | some entry =>
          simp [runOp, hro, hres, hl] at hq
          subst hq; exact resolve_ok_contained _ _ _ hres
  | update rel content =>
    cases hro : fs.read_only with
    | true => simp [runOp, hro] at hq
    | false =>
      cases hres : resolve fs.root rel with
      | error e => simp [runOp, hro, hres] at hq
      | ok p =>
        cases hl : Storage.lookup st p with
        | none =>
          simp [runOp, hro, hres, hl] at hq
          subst hq; exact resolve_ok_contained _ _ _ hres
        | some entry =>
          cases entry <;> simp [runOp, hro, hres, hl] at hq <;>
            (subst hq; exact resolve_ok_contained _ _ _ hres)
  | rename old new =>
    cases hro : fs.read_only with
    | true => simp [runOp, hro] at hq
    | false =>
      cases hresO : resolve fs.root old with
      | error e => simp [runOp, hro, hresO] at hq
      | ok pOld =>
        cases hresN : resolve fs.root new with
        | error e => simp [runOp, hro, hresO, hresN] at hq
        | ok pNew =>
          have hmem : q = pOld ∨ q = pNew := by
            cases hlO : Storage.lookup st pOld with
            | none => simpa [runOp, hro, hresO, hresN, hlO] using hq
            | some e =>
              cases hlN : Storage.lookup st pNew with
              | none => simpa [runOp, hro, hresO, hresN, hlO, hlN] using hq
              | some e2 => simpa [runOp, hro, hresO, hresN, hlO, hlN] using hq
          cases hmem with
          | inl hh => subst hh; exact resolve_ok_contained _ _ _ hresO
          | inr hh => subst hh; exact resolve_ok_contained _ _ _ hresN
  | delete rel =>
    cases hro : fs.read_only with
    | true => simp [runOp, hro] at hq
    | false =>
      cases hres : resolve fs.root rel with
      | error e => simp [runOp, hro, hres] at hq
      | ok p =>
        cases hl : Storage.lookup st p with
        | none =>
          simp [runOp, hro, hres, hl] at hq
          subst hq; exact resolve_ok_contained _ _ _ hres
        | some entry =>
          simp [runOp, hro, hres, hl] at hq
          subst hq; exact resolve_ok_contained _ _ _ hres

/-! ### Claim theorems -/

/-- C1: for every configured root and client-supplied relative path,
`resolve` either returns an absolute path lying within that root or rejects
with `PathEscapeError`; a path beginning with the separator rejects, a
traversal that climbs out of the root at any depth (such as
`a/../../../etc/passwd`) rejects, and no operation handler performs
storage I/O on a path outside the root of its file system. -/
theorem c1_path_containment (root : AbsPath) (rel : String) :
    (∀ p, resolve root rel = Except.ok p → root <+: p)
  ∧ (startsWithSep rel = true → resolve root rel = Except.error PathError.escape)
  ∧ resolve root "a/../../../etc/passwd" = Except.error PathError.escape
  ∧ (∀ (fs : FileSystemDefinition) (st : Storage) (op : OpReq),
       fs.root = root → ∀ q ∈ (runOp fs st op).accessed, root <+: q) := by
  refine ⟨fun p h => resolve_ok_contained root rel p h, ?_, rfl, ?_⟩
  · intro h
    simp [resolve, h]
  · intro fs st op hroot q hq
    subst hroot
    exact runOp_accessed_contained fs st op q hq

/-- C1 witness: a concrete resolution stays within its root. -/
theorem c1_witness :
    resolve ["srv"] "a/b" = Except.ok ["srv", "a", "b"]
  ∧ ["srv"] <+: ["srv", "a", "b"] :=
  ⟨rfl, (c1_path_containment ["srv"] "a/b").1 ["srv", "a", "b"] rfl⟩

/-- C2: on a file system whose read-only flag is set, every mutating
operation fails with `ReadOnlyViolationError` before any storage I/O (the
storage and the access trace are untouched), while `read` behaves exactly
as on the same file system without the flag (and never mutates storage)
and `list_fs` succeeds. -/
theorem c2_read_only_enforced (fs : FileSystemDefinition) (st : Storage)
    (h : fs.read_only = true) :
    (∀ rel folder, runOp fs st (OpReq.create rel folder)
        = ⟨Except.error OpError.readOnly, st, []⟩)
  ∧ (∀ rel content, runOp fs st (OpReq.update rel content)
        = ⟨Except.error OpError.readOnly, st, []⟩)
  ∧ (∀ o n, runOp fs st (OpReq.rename o n)
        = ⟨Except.error OpError.readOnly, st, []⟩)
  ∧ (∀ rel, runOp fs st (OpReq.delete rel)
        = ⟨Except.error OpError.readOnly, st, []⟩)
  ∧ (∀ rel, runOp fs st (OpReq.read rel)
        = runOp ⟨fs.name, fs.root, false⟩ st (OpReq.read rel))
  ∧ (∀ rel, (runOp fs st (OpReq.read rel)).store = st)
  ∧ (∀ (secret : String) (reg : Registry) (n : String),
       handle secret reg st ⟨some secret, n, OpReq.list_fs⟩
         = (⟨200, listFsJson reg⟩, st)) := by
  refine ⟨fun rel folder => by simp [runOp, h],
          fun rel content => by simp [runOp, h],
          fun o n => by simp [runOp, h],
          fun rel => by simp [runOp, h],
          fun rel => rfl,
          fun rel => ?_,
          fun secret reg n => by simp [handle, authenticate_some_self]⟩
  cases hres : resolve fs.root rel with
  | error e => simp [runOp, hres]
  | ok p =>
    cases hl : Storage.lookup st p with
    | none => simp [runOp, hres, hl]
    | some entry => cases entry <;> simp [runOp, hres, hl]

/-- C2 witness: a concrete read-only file system rejects `create` without
touching storage. -/
theorem c2_witness :
    runOp ⟨"media", ["srv"], true⟩ [] (OpReq.create "a" false)
      = ⟨Except.error OpError.readOnly, [], []⟩ :=
  (c2_read_only_enforced ⟨"media", ["srv"], true⟩ [] rfl).1 "a" false

/-- C3: a request whose credential is absent or mismatching gets the fixed
401 response on every endpoint, with storage untouched and independently of
the file-system name or operation — in particular a bad credential with a
nonexistent fs_name still yields 401, never 404. -/
theorem c3_unauthorized (secret : String) (reg : Registry) (st : Storage)
    (req : Request) (h : req.apiKey ≠ some secret) :
    handle secret reg st req = (response401, st)
  ∧ response401
      = ⟨401, Json.obj [("error", Json.str "Unauthorized: Invalid API Key")]⟩ := by
  refine ⟨?_, rfl⟩
  simp [handle, authenticate_eq_false secret req.apiKey h]

/-- C3 witness: a bad credential with a nonexistent file-system name yields
the 401 response, not 404. -/
theorem c3_witness :
    handle "secret" ⟨[]⟩ [] ⟨some "wrong", "no_such_fs", OpReq.read "x"⟩
      = (response401, []) :=
  (c3_unauthorized "secret" ⟨[]⟩ []
    ⟨some "wrong", "no_such_fs", OpReq.read "x"⟩ (by decide)).1

/-- C4: the response formatter renders `PathEscapeError` exactly as
`PathNotFoundError`, so the external responses of an escaping request and a
nonexistent-path request are indistinguishable; concretely, an
authenticated `read` of the traversal path `..` produces precisely the
path-not-found response. -/
theorem c4_escape_presented_as_not_found (p : String) :
    formatError (OpError.escape p) = formatError (OpError.pathNotFound p)
  ∧ formatError (OpError.escape p)
      = ⟨404, Json.obj [("error",
          Json.str ("Path \x27" ++ p ++ "\x27 does not exist"))]⟩
  ∧ ∀ (secret : String) (st : Storage) (fs : FileSystemDefinition),
      handle secret ⟨[fs]⟩ st ⟨some secret, fs.name, OpReq.read ".."⟩
        = (formatError (OpError.pathNotFound ".."), st) := by
  refine ⟨rfl, rfl, ?_⟩
  intro secret st fs
  have hres : resolve fs.root ".." = Except.error PathError.escape := rfl
  have hro : runOp fs st (OpReq.read "..")
      = ⟨Except.error (OpError.escape ".."), st, []⟩ := by
    simp [runOp, hres]
  simp [handle, authenticate_some_self, Registry.lookupFs, List.find?, hro,
        formatError]

/-- C5: on a read-write file system, updating an existing file and then
reading the same path returns exactly the new content — the write is a full
replacement of the entry at the resolved path, with no append or merge. -/
theorem c5_update_then_read (fs : FileSystemDefinition) (st : Storage)
    (rel : String) (p : AbsPath) (c0 c : String)
    (hro : fs.read_only = false)
    (hres : resolve fs.root rel = Except.ok p)
    (hfile : Storage.lookup st p = some (Entry.file c0)) :
    (runOp fs st (OpReq.update rel c)).result = Except.ok (updatedJson rel)
  ∧ (runOp fs st (OpReq.update rel c)).store = Storage.set st p (Entry.file c)
  ∧ (runOp fs (runOp fs st (OpReq.update rel c)).store (OpReq.read rel)).result
      = Except.ok (fileJson rel c) := by
  have h1 : runOp fs st (OpReq.update rel c)
      = ⟨Except.ok (updatedJson rel), Storage.set st p (Entry.file c), [p]⟩ := by
    simp [runOp, hro, hres, hfile]
  refine ⟨by rw [h1], by rw [h1], ?_⟩
  rw [h1]
  simp [runOp, hres, Storage.lookup_set_self]

/-- C5 witness: a concrete update followed by a read returns the new
content. -/
theorem c5_witness :
    (runOp ⟨"m", ["r"], false⟩
       (runOp ⟨"m", ["r"], false⟩ [(["r", "a"], Entry.file "old")]
         (OpReq.update "a" "new")).store
       (OpReq.read "a")).result = Except.ok (fileJson "a" "new") :=
  (c5_update_then_read ⟨"m", ["r"], false⟩ [(["r", "a"], Entry.file "old")]
    "a" ["r", "a"] "old" "new" rfl rfl rfl).2.2

/-- C6: on a read-write file system, with both paths resolved and contained
independently, renaming an existing file to a fresh path makes a read of
the new path return the original content while a read of the old path
reports not-found; when the new path already exists, rename fails with
`AlreadyExistsError`. -/
theorem c6_rename (fs : FileSystemDefinition) (st : Storage)
    (old new : String) (pOld pNew : AbsPath) (c : String)
    (hro : fs.read_only = false)
    (hold : resolve fs.root old = Except.ok pOld)
    (hnew : resolve fs.root new = Except.ok pNew)
    (hne : pOld ≠ pNew) :
    fs.root <+: pOld
  ∧ fs.root <+: pNew
  ∧ (Storage.lookup st pOld = some (Entry.file c) →
     Storage.lookup st pNew = none →
       (runOp fs (runOp fs st (OpReq.rename old new)).store
          (OpReq.read new)).result = Except.ok (fileJson new c)
     ∧ (runOp fs (runOp fs st (OpReq.rename old new)).store
          (OpReq.read old)).result = Except.error (OpError.pathNotFound old))
  ∧ (∀ e e2, Storage.lookup st pOld = some e →
       Storage.lookup st pNew = some e2 →
       (runOp fs st (OpReq.rename old new)).result
         = Except.error (OpError.alreadyExists new)) := by
  refine ⟨resolve_ok_contained _ _ _ hold, resolve_ok_contained _ _ _ hnew,
          ?_, ?_⟩
  · intro hOld hNew
    have hr : runOp fs st (OpReq.rename old new)
        = ⟨Except.ok renamedJson,
           Storage.set (Storage.remove st pOld) pNew (Entry.file c),
           [pOld, pNew]⟩ := by
      simp [runOp, hro, hold, hnew, hOld, hNew]
    constructor
    · rw [hr]
      simp [runOp, hnew, Storage.lookup_set_self]
    · rw [hr]
      have hl : Storage.lookup
          (Storage.set (Storage.remove st pOld) pNew (Entry.file c)) pOld
          = none := by
        rw [Storage.lookup_set_ne _ _ _ _ hne]
        exact Storage.lookup_remove_self st pOld
      simp [runOp, hold, hl]
  · intro e e2 hOld hNew
    simp [runOp, hro, hold, hnew, hOld, hNew]

/-- C6 witness: a concrete rename moves the content to the new path and
leaves the old path not-found. -/
theorem c6_witness :
    (runOp ⟨"m", ["r"], false⟩
       (runOp ⟨"m", ["r"], false⟩ [(["r", "a"], Entry.file "hi")]
         (OpReq.rename "a" "b")).store
       (OpReq.read "b")).result = Except.ok (fileJson "b" "hi")
  ∧ (runOp ⟨"m", ["r"], false⟩
       (runOp ⟨"m", ["r"], false⟩ [(["r", "a"], Entry.file "hi")]
         (OpReq.rename "a" "b")).store
       (OpReq.read "a")).result = Except.error (OpError.pathNotFound "a") :=
  (c6_rename ⟨"m", ["r"], false⟩ [(["r", "a"], Entry.file "hi")] "a" "b"
    ["r", "a"] ["r", "b"] "hi" rfl rfl rfl (by decide)).2.2.1 rfl rfl

/-- C7: a read of a directory returns its entries listed by name in
ascending, case-sensitive order: the response is the sorted listing, the
listing is sorted with respect to the string order, and it is a
permutation of the directory's children. -/
theorem c7_read_directory_sorted (fs : FileSystemDefinition) (st : Storage)
    (rel : String) (p : AbsPath)
    (hres : resolve fs.root rel = Except.ok p)
    (hdir : Storage.lookup st p = some Entry.dir) :
    (runOp fs st (OpReq.read rel)).result
      = Except.ok (dirJson rel (readDirNames st p))
  ∧ List.Sorted (fun a b => a ≤ b) (readDirNames st p)
  ∧ List.Perm (readDirNames st p) (childNames st p) := by
  refine ⟨by simp [runOp, hres, hdir], ?_, ?_⟩
  · exact List.sorted_insertionSort _ _
  · exact List.perm_insertionSort _ _

/-- C7 witness: a concrete directory read returns the sorted listing. -/
theorem c7_witness :
    (runOp ⟨"m", ["r"], false⟩
       [(["r"], Entry.dir), (["r", "b"], Entry.file "x"), (["r", "a"], Entry.dir)]
       (OpReq.read "")).result
      = Except.ok (dirJson ""
          (readDirNames
            [(["r"], Entry.dir), (["r", "b"], Entry.file "x"),
             (["r", "a"], Entry.dir)] ["r"]))
  ∧ List.Sorted (fun a b => a ≤ b)
      (readDirNames
        [(["r"], Entry.dir), (["r", "b"], Entry.file "x"),
         (["r", "a"], Entry.dir)] ["r"]) :=
  ⟨(c7_read_directory_sorted ⟨"m", ["r"], false⟩
      [(["r"], Entry.dir), (["r", "b"], Entry.file "x"), (["r", "a"], Entry.dir)]
      "" ["r"] rfl rfl).1,
   (c7_read_directory_sorted ⟨"m", ["r"], false⟩
      [(["r"], Entry.dir), (["r", "b"], Entry.file "x"), (["r", "a"], Entry.dir)]
      "" ["r"] rfl rfl).2.1⟩

/-- C8 counterexample: the credential comparison in `handleLogin`
(Login.vue line 43) is JavaScript strict equality, which stops at the first
mismatching character: the two incorrect same-length access codes
`xrankenstein` and `frankensteix` take a different number of character
comparisons against the secret, so the comparison is not constant-time and
its timing depends on how many leading characters match the secret. -/
theorem c8_counterexample :
    jsStrictEq "xrankenstein" loginSecret = false
  ∧ jsStrictEq "frankensteix" loginSecret = false
  ∧ String.length "xrankenstein" = String.length "frankensteix"
  ∧ jsStrictEqCost "xrankenstein" loginSecret
      ≠ jsStrictEqCost "frankensteix" loginSecret := by
  decide

/-- C8 amended: `handleLogin` compares the supplied access code against the
hardcoded secret with short-circuiting strict equality, so for every
incorrect credential of the secret's length the number of character
comparisons is exactly one more than the number of leading characters that
match the secret — the comparison cost depends on the length of the
matching prefix, not a constant. -/
theorem c8_strict_equality_cost (code : String)
    (hlen : code.data.length = loginSecret.data.length)
    (hne : code ≠ loginSecret) :
    jsStrictEq code loginSecret = false
  ∧ jsStrictEqCost code loginSecret
      = leadMatch code.data loginSecret.data + 1 := by
  have hdata : code.data ≠ loginSecret.data :=
    fun hh => hne (String.ext hh)
  constructor
  · cases hb : jsStrictEq code loginSecret with
    | false => rfl
    | true => exact absurd ((jsStrictEq_iff _ _).mp hb) hne
  · exact strictEqChars_cost _ _ hlen hdata

/-- C8 witness: a concrete incorrect credential is rejected with a
comparison cost of one more than its matching prefix length. -/
theorem c8_witness :
    jsStrictEq "frankensteix" loginSecret = false
  ∧ jsStrictEqCost "frankensteix" loginSecret
      = leadMatch "frankensteix".data loginSecret.data + 1 :=
  c8_strict_equality_cost "frankensteix" (by decide) (by decide)

/-- C9: `handleLogin` of the first Login component emits `login-success`
and writes the code to localStorage exactly when the entered code equals
the string literal `frankenstein` hardcoded in the client source
(`loginSecret`); any other code produces no localStorage write, no emit,
and the error message `Invalid access code`. -/
theorem c9_first_login_component (st : Login1State) :
    loginSecret = "frankenstein"
  ∧ (st.accessCode = "frankenstein" →
      handleLogin1 st
        = (⟨st.accessCode, none, false⟩,
           ⟨[("accessCode", st.accessCode)],
            [("login-success", st.accessCode)]⟩))
  ∧ (st.accessCode ≠ "frankenstein" →
      handleLogin1 st
        = (⟨st.accessCode, some "Invalid access code", false⟩, ⟨[], []⟩)) := by
  obtain ⟨ac, er, lo⟩ := st
  refine ⟨rfl, ?_, ?_⟩
  · intro h
    have hb : jsStrictEq ac loginSecret = true := (jsStrictEq_iff _ _).mpr h
    simp [handleLogin1, hb]
  · intro h
    have hb : jsStrictEq ac loginSecret = false := by
      cases hbb : jsStrictEq ac loginSecret with
      | false => rfl
      | true => exact absurd ((jsStrictEq_iff _ _).mp hbb) h
    simp [handleLogin1, hb]

/-- C9 witness: the hardcoded code is accepted, written to localStorage and
emitted. -/
theorem c9_witness :
    handleLogin1 ⟨"frankenstein", some "old", true⟩
      = (⟨"frankenstein", none, false⟩,
         ⟨[("accessCode", "frankenstein")],
          [("login-success", "frankenstein")]⟩) :=
  (c9_first_login_component ⟨"frankenstein", some "old", true⟩).2.1 rfl

/-- C10: after every completed `handleLogin` invocation of the second Login
component — success, non-OK server response, or a thrown fetch — the
`finally` block has cleared the loading flag and reset the access code to
the empty string. -/
theorem c10_second_login_resets (st : Login2State) (out : FetchOutcome) :
    ((handleLogin2 st out).1).loading = false
  ∧ ((handleLogin2 st out).1).accessCode = "" := by
  cases out <;> simp [handleLogin2]

end VF
